import Mathlib

/-!
Verification development for the vitest runner task model
(`packages/runner/src/types/tasks.ts`).

The repository ships the declared contract (the `tasks.ts` type
declarations); the engine behind it is described by the accompanying
specification. Where a definition embeds behaviour that is only declared,
not implemented, in the repository, its doc comment starts with
`Modelled from the spec:` and names the missing piece.
-/

namespace Vitest

/-- Task mode, from `RunMode` in tasks.ts. -/
inductive RunMode
  | run
  | skip
  | only
  | todo
  deriving DecidableEq, Repr

/-- State of a task result, from `TaskState` in tasks.ts: a run mode or a
terminal `pass` / `fail`. -/
inductive TaskState
  | run
  | skip
  | only
  | todo
  | pass
  | fail
  deriving DecidableEq, Repr

/-- Embeds a run mode into the state space (the `state` field inherits
`task.mode` during collection). -/
def TaskState.ofRunMode : RunMode → TaskState
  | .run => .run
  | .skip => .skip
  | .only => .only
  | .todo => .todo

/-- The result of calling a task, from `TaskResult` in tasks.ts (errors are
kept as plain messages; timing fields are immaterial to the claims). -/
structure TaskResult where
  state : TaskState
  errors : List String := []
  retryCount : Option Nat := none
  repeatCount : Option Nat := none
  note : Option String := none
  deriving DecidableEq, Repr

/- ## Identity scheme (spec section 4.1, `TaskBase.id` doc in tasks.ts) -/

/-- Appends one sibling index to an id, producing the `<base>_<i>` form of
the examples in the `TaskBase.id` doc comment. -/
def appendIndex (base : String) (i : Nat) : String :=
  base ++ "_" ++ toString i

/-- Modelled from the spec: the hash behind the file root id is unspecified
(only that the root id is derived from the file path and project name), so it
is modelled as a deterministic polynomial string hash. -/
def fileHash (s : String) : Nat :=
  s.data.foldl (fun acc c => (acc * 31 + c.toNat) % 1000000007) 7

/-- Modelled from the spec: the root id of a file task is based on the file
path relative to root and the project name. -/
def fileId (filepath : String) (projectName : Option String) : String :=
  toString (fileHash (filepath ++ (match projectName with
    | some p => ":" ++ p
    | none => "")))

/-- Modelled from the spec (section 4.1): `computeId` derives the id from the
file root id plus the underscore-joined path of sibling indices down to the
task. -/
def computeId (filepath : String) (projectName : Option String)
    (position : List Nat) : String :=
  position.foldl appendIndex (fileId filepath projectName)

/-- Structural shape of the collected task tree of one file: tests are
leaves, suites hold an ordered child list. -/
inductive TaskTree
  | test (name : String)
  | suite (name : String) (children : List TaskTree)

/-- A task tree in which every node carries its assigned id. -/
inductive IdTree
  | test (name : String) (id : String)
  | suite (name : String) (id : String) (children : List IdTree)

mutual
/-- Modelled from the spec: collection assigns each task its id exactly once,
in a single pass, from the id of its parent and its sibling index. -/
def assignIds (id : String) : TaskTree → IdTree
  | .test n => .test n id
  | .suite n cs => .suite n id (assignChildren id 0 cs)

/-- Assigns ids to the children of a node whose id is `base`, the child at
offset `i` receiving `appendIndex base i`. -/
def assignChildren (base : String) (i : Nat) : List TaskTree → List IdTree
  | [] => []
  | c :: cs => assignIds (appendIndex base i) c :: assignChildren base (i + 1) cs
end

mutual
/-- Reads the id of the node at a path of sibling indices, if the path is
valid in the tree. -/
def idAt : IdTree → List Nat → Option String
  | .test _ i, [] => some i
  | .test _ _, _ :: _ => none
  | .suite _ i _, [] => some i
  | .suite _ _ cs, j :: rest => idAtChildren cs j rest

/-- Looks up the node at offset `j` of a child list and continues with the
remaining path. -/
def idAtChildren : List IdTree → Nat → List Nat → Option String
  | [], _, _ => none
  | c :: _, 0, rest => idAt c rest
  | _ :: cs, j + 1, rest => idAtChildren cs j rest
end

/-- A collected file: the file identity together with the id-annotated tree
(the root node is the file task itself). -/
structure CollectedFile where
  filepath : String
  projectName : Option String
  root : IdTree

/-- Modelled from the spec: collecting a file assigns the file task its root
id and every descendant the id derived from its position. -/
def collectFile (filepath : String) (projectName : Option String)
    (t : TaskTree) : CollectedFile :=
  ⟨filepath, projectName, assignIds (fileId filepath projectName) t⟩

mutual
theorem idAt_assignIds (root : String) (t : TaskTree) (pos : List Nat)
    (x : String) (h : idAt (assignIds root t) pos = some x) :
    x = pos.foldl appendIndex root := by
  cases t with
  | test n =>
    cases pos with
    | nil =>
      simp only [assignIds, idAt] at h
      simpa [List.foldl] using h.symm
    | cons j rest => simp [assignIds, idAt] at h
  | suite n cs =>
    cases pos with
    | nil =>
      simp only [assignIds, idAt] at h
      simpa [List.foldl] using h.symm
    | cons j rest =>
      simp only [assignIds, idAt] at h
      have := idAtChildren_assignChildren root 0 cs j rest x h
      simpa [List.foldl, Nat.zero_add] using this

theorem idAtChildren_assignChildren (base : String) (i : Nat)
    (cs : List TaskTree) (j : Nat) (rest : List Nat) (x : String)
    (h : idAtChildren (assignChildren base i cs) j rest = some x) :
    x = rest.foldl appendIndex (appendIndex base (i + j)) := by
  cases cs with
  | nil => simp [assignChildren, idAtChildren] at h
  | cons c cs =>
    cases j with
    | zero =>
      simp only [assignChildren, idAtChildren] at h
      simpa [Nat.add_zero] using idAt_assignIds (appendIndex base i) c rest x h
    | succ j =>
      simp only [assignChildren, idAtChildren] at h
      have := idAtChildren_assignChildren base (i + 1) cs j rest x h
      have harith : i + 1 + j = i + (j + 1) := by omega
      rw [harith] at this
      exact this
end

/-- Claim C1: every task id is derived deterministically from the file root
id (a function of file path and project name) plus the path of sibling
indices down to the task; therefore two collections of the same unchanged
file (indeed, of any two trees, at any position present in both) assign the
task at a given position the identical id. Ids are assigned once, in a
single collection pass, and never regenerated afterwards: `idAt` reads the
value fixed by that pass, a pure function of file identity and position. -/
theorem task_id_deterministic (fp : String) (pn : Option String)
    (t t2 : TaskTree) (pos : List Nat) (x y : String)
    (h1 : idAt (collectFile fp pn t).root pos = some x)
    (h2 : idAt (collectFile fp pn t2).root pos = some y) :
    x = computeId fp pn pos ∧ x = y := by
  have e1 := idAt_assignIds (fileId fp pn) t pos x h1
  have e2 := idAt_assignIds (fileId fp pn) t2 pos y h2
  exact ⟨e1, e1.trans e2.symm⟩

/-- Witness for claim C1 at a concrete file and position. -/
theorem task_id_deterministic_witness :
    computeId "a.ts" none [0] = computeId "a.ts" none [0] ∧
    computeId "a.ts" none [0] = computeId "a.ts" none [0] :=
  task_id_deterministic "a.ts" none (.suite "r" [.test "t"])
    (.suite "s" [.test "u", .test "v"]) [0]
    (computeId "a.ts" none [0]) (computeId "a.ts" none [0])
    (by decide) (by decide)

/- ## Skip control signal (spec section 4.5 step 3, `TaskContext.skip` doc) -/

/-- Outcome of running part of a test body: normal completion, an ordinary
error, or the skip control signal (which is not an error). -/
inductive Signal
  | ok
  | err (msg : String)
  | skipSig (note : Option String)
  deriving DecidableEq, Repr

/-- Statements of a test body, as far as control flow is concerned: an
observable action (logged by its tag), a thrown ordinary error, a call of the
context `skip(note?)` operation, and ordinary error handling around a block. -/
inductive Stmt
  | action (tag : Nat)
  | throwErr (msg : String)
  | skipCall (note : Option String)
  | tryCatch (body : List Stmt) (handler : List Stmt)

mutual
/-- Modelled from the spec: sequential execution of a test body. A statement
that does not complete normally prevents every later statement from
executing. -/
def runStmts : List Stmt → List Nat → List Nat × Signal
  | [], log => (log, .ok)
  | s :: rest, log =>
    match runStmt s log with
    | (log2, .ok) => runStmts rest log2
    | (log2, .err m) => (log2, .err m)
    | (log2, .skipSig n) => (log2, .skipSig n)

/-- Modelled from the spec: one statement. `skip(note?)` raises the skip
signal; ordinary error handling (`tryCatch`) catches ordinary errors only —
the skip signal propagates past it, so the handler never swallows it. -/
def runStmt : Stmt → List Nat → List Nat × Signal
  | .action t, log => (log ++ [t], .ok)
  | .throwErr m, log => (log, .err m)
  | .skipCall n, log => (log, .skipSig n)
  | .tryCatch body handler, log =>
    match runStmts body log with
    | (log2, .ok) => (log2, .ok)
    | (log2, .err _) => runStmts handler log2
    | (log2, .skipSig n) => (log2, .skipSig n)
end

/-- Modelled from the spec: the controller turns the final signal of a test
body into the task result — the skip signal is caught specifically by the
controller and yields state `skip` with the given note. -/
def resultOfSignal : Signal → TaskResult
  | .ok => { state := .pass }
  | .err m => { state := .fail, errors := [m] }
  | .skipSig n => { state := .skip, note := n }

/-- Modelled from the spec: running a whole test body from an empty log. -/
def runTestBody (body : List Stmt) : List Nat × TaskResult :=
  let r := runStmts body []
  (r.1, resultOfSignal r.2)

theorem runStmts_append (a b : List Stmt) (log : List Nat) :
    runStmts (a ++ b) log =
      match runStmts a log with
      | (log2, .ok) => runStmts b log2
      | (log2, .err m) => (log2, .err m)
      | (log2, .skipSig n) => (log2, .skipSig n) := by
  induction a generalizing log with
  | nil => simp [runStmts]
  | cons s rest ih =>
    simp only [List.cons_append, runStmts]
    cases hr : runStmt s log with
    | mk log2 sig =>
      cases sig with
      | ok => simpa using ih log2
      | err m => simp
      | skipSig n => simp

/-- Claim C2: if the prefix of a test body before a `skip(note)` call runs
normally, then (first conjunct) the body stops at the call — no later
statement executes, the log is exactly the prefix log whatever follows — and
the final result has state `skip` with the note recorded in `result.note`;
and (second conjunct) the signal is non-recoverable: wrapped in ordinary
error handling, the handler does not swallow it and the outcome is the
same skip result. -/
theorem skip_aborts_rest (pre post handler : List Stmt) (n : Option String)
    (log : List Nat) (h : runStmts pre [] = (log, .ok)) :
    runTestBody (pre ++ .skipCall n :: post) = (log, { state := .skip, note := n }) ∧
    runTestBody (pre ++ .tryCatch [.skipCall n] handler :: post)
      = (log, { state := .skip, note := n }) := by
  constructor
  · simp only [runTestBody, runStmts_append, h, runStmts, runStmt, resultOfSignal]
  · simp only [runTestBody, runStmts_append, h, runStmts, runStmt, resultOfSignal]

/-- Witness for claim C2: a body that logs one action, then skips with a
note, then would log another action and throw. -/
theorem skip_aborts_rest_witness :
    runTestBody [.action 1, .skipCall (some "reason"), .action 2, .throwErr "boom"]
      = ([1], { state := .skip, note := some "reason" }) ∧
    runTestBody [.action 1,
        .tryCatch [.skipCall (some "reason")] [.action 3], .action 2, .throwErr "boom"]
      = ([1], { state := .skip, note := some "reason" }) :=
  skip_aborts_rest [.action 1] [.action 2, .throwErr "boom"] [.action 3]
    (some "reason") [1] (by decide)

/- ## Retry / repeat loops and the fails flag (spec section 4.5 steps 7-9) -/

/-- Outcome of one round of the retry loop: whether the round ultimately
passed, the errors of its last attempt, the retries it consumed, and the
number of attempts it made. -/
structure RoundResult where
  passed : Bool
  errors : List String
  retriesUsed : Nat
  attempts : Nat
  deriving DecidableEq, Repr

/-- Modelled from the spec (section 4.5 step 7): the retry loop. `behavior`
maps the global attempt index to `none` (the attempt passes) or
`some errors` (it fails); `i` is the index of the next attempt and the last
argument the number of retries still allowed. On failure with retries left
the attempt is re-run and the earlier errors are discarded, so the error set
of a round is that of its last attempt only. -/
def retryRound (behavior : Nat → Option (List String)) : Nat → Nat → RoundResult
  | i, 0 =>
    match behavior i with
    | none => ⟨true, [], 0, 1⟩
    | some errs => ⟨false, errs, 0, 1⟩
  | i, l + 1 =>
    match behavior i with
    | none => ⟨true, [], 0, 1⟩
    | some _ =>
      let r := retryRound behavior (i + 1) l
      ⟨r.passed, r.errors, r.retriesUsed + 1, r.attempts + 1⟩

/-- Accumulated outcome of the repeat loop. -/
structure RunOutcome where
  passed : Bool
  errors : List String
  retryCount : Nat
  attempts : Nat
  deriving DecidableEq, Repr

/-- Modelled from the spec (section 4.5 step 8): the repeat loop. A further
round is entered only after a passing round; a failure during a repeat
re-enters the retry loop for that repeat (each round is a full `retryRound`);
a round that still fails after its retries ends the task. -/
def repeatRounds (behavior : Nat → Option (List String)) (retry : Nat) :
    Nat → Nat → RunOutcome
  | i, 0 =>
    let r := retryRound behavior i retry
    ⟨r.passed, r.errors, r.retriesUsed, r.attempts⟩
  | i, reps + 1 =>
    let r := retryRound behavior i retry
    if r.passed then
      let rest := repeatRounds behavior retry (i + r.attempts) reps
      ⟨rest.passed, rest.errors, r.retriesUsed + rest.retryCount,
        r.attempts + rest.attempts⟩
    else
      ⟨false, r.errors, r.retriesUsed, r.attempts⟩

/-- Modelled from the spec (section 4.5 step 9): `fails: true` inverts the
final pass/fail state. -/
def finalState (fails passed : Bool) : TaskState :=
  if fails then (if passed then .fail else .pass)
  else (if passed then .pass else .fail)

/-- The final record of driving one test to a terminal result. `repeatCount`
subsumes `retryCount`: it counts every re-entry into the attempt loop, both
retry and repeat re-entries (one less than the total number of attempts). -/
structure TestRun where
  state : TaskState
  errors : List String
  retryCount : Nat
  repeatCount : Nat
  attempts : Nat
  deriving DecidableEq, Repr

/-- Modelled from the spec (section 4.5): the execution controller drives a
test with the given `retry`, `repeats` and `fails` settings over `behavior`
to a terminal result. -/
def runTask (retry repeats : Nat) (fails : Bool)
    (behavior : Nat → Option (List String)) : TestRun :=
  let o := repeatRounds behavior retry 0 repeats
  ⟨finalState fails o.passed, o.errors, o.retryCount, o.attempts - 1, o.attempts⟩

theorem retryRound_all_fail (behavior : Nat → Option (List String))
    (f : Nat → List String) (l : Nat) :
    ∀ i, (∀ k, i ≤ k → behavior k = some (f k)) →
      retryRound behavior i l = ⟨false, f (i + l), l, l + 1⟩ := by
  induction l with
  | zero =>
    intro i hb
    simp [retryRound, hb i (Nat.le_refl i)]
  | succ l ih =>
    intro i hb
    have hrec := ih (i + 1) (fun k hk => hb k (Nat.le_of_succ_le hk))
    have harith : i + 1 + l = i + (l + 1) := by omega
    simp [retryRound, hb i (Nat.le_refl i), hrec, harith]

theorem retryRound_first_pass (behavior : Nat → Option (List String))
    (i : Nat) (hb : behavior i = none) (l : Nat) :
    retryRound behavior i l = ⟨true, [], 0, 1⟩ := by
  cases l with
  | zero => simp [retryRound, hb]
  | succ l => simp [retryRound, hb]

theorem retryRound_attempts (behavior : Nat → Option (List String)) (l : Nat) :
    ∀ i, (retryRound behavior i l).attempts = (retryRound behavior i l).retriesUsed + 1 := by
  induction l with
  | zero =>
    intro i
    cases hb : behavior i <;> simp [retryRound, hb]
  | succ l ih =>
    intro i
    cases hb : behavior i with
    | none => simp [retryRound, hb]
    | some errs => simp [retryRound, hb, ih (i + 1)]

theorem repeatRounds_all_fail (behavior : Nat → Option (List String))
    (f : Nat → List String) (retry : Nat) (i reps : Nat)
    (hb : ∀ k, i ≤ k → behavior k = some (f k)) :
    repeatRounds behavior retry i reps = ⟨false, f (i + retry), retry, retry + 1⟩ := by
  have hr := retryRound_all_fail behavior f retry i hb
  cases reps with
  | zero => simp [repeatRounds, hr]
  | succ reps => simp [repeatRounds, hr]

theorem repeatRounds_all_pass (behavior : Nat → Option (List String))
    (retry : Nat) (hb : ∀ k, behavior k = none) :
    ∀ reps i, repeatRounds behavior retry i reps = ⟨true, [], 0, reps + 1⟩ := by
  intro reps
  induction reps with
  | zero =>
    intro i
    simp [repeatRounds, retryRound_first_pass behavior i (hb i) retry]
  | succ reps ih =>
    intro i
    simp [repeatRounds, retryRound_first_pass behavior i (hb i) retry, ih]
    omega

theorem repeatRounds_retry_le_attempts (behavior : Nat → Option (List String))
    (retry : Nat) (reps : Nat) :
    ∀ i, (repeatRounds behavior retry i reps).retryCount + 1
      ≤ (repeatRounds behavior retry i reps).attempts := by
  induction reps with
  | zero =>
    intro i
    simp [repeatRounds, retryRound_attempts behavior retry i]
  | succ reps ih =>
    intro i
    by_cases hp : (retryRound behavior i retry).passed
    · have h1 := retryRound_attempts behavior retry i
      have h2 := ih (i + (retryRound behavior i retry).attempts)
      simp [repeatRounds, hp]
      omega
    · have h1 := retryRound_attempts behavior retry i
      simp [repeatRounds, hp]
      omega

/-- Claim C3: with `fails: true` the final reported state is the inverse of
the actual outcome of the attempt loop: an ultimately failing test is
reported `pass` and an ultimately passing test is reported `fail` (first two
conjuncts, against the raw outcome; last two, against the state the same run
reports without the flag). -/
theorem fails_inverts_state (retry reps : Nat)
    (behavior : Nat → Option (List String)) :
    (runTask retry reps true behavior).state
      = (if (repeatRounds behavior retry 0 reps).passed
          then TaskState.fail else TaskState.pass) ∧
    (runTask retry reps false behavior).state
      = (if (repeatRounds behavior retry 0 reps).passed
          then TaskState.pass else TaskState.fail) ∧
    ((runTask retry reps true behavior).state = TaskState.pass ↔
      (runTask retry reps false behavior).state = TaskState.fail) ∧
    ((runTask retry reps true behavior).state = TaskState.fail ↔
      (runTask retry reps false behavior).state = TaskState.pass) := by
  cases hp : (repeatRounds behavior retry 0 reps).passed <;>
    simp [runTask, finalState, hp]

/-- Claim C4: a test with `retry: n` whose every attempt fails is attempted
exactly `n + 1` times, finishes with `retryCount = n`, and reports the error
set of the last attempt only (attempt index `n`), whatever the `repeats` and
`fails` settings. -/
theorem retry_exhausted (n reps : Nat) (fl : Bool) (errs : Nat → List String) :
    (runTask n reps fl (fun k => some (errs k))).attempts = n + 1 ∧
    (runTask n reps fl (fun k => some (errs k))).retryCount = n ∧
    (runTask n reps fl (fun k => some (errs k))).errors = errs n := by
  have h := repeatRounds_all_fail (fun k => some (errs k)) errs n 0 reps
    (fun _ _ => rfl)
  simp [runTask, h]

/-- Claim C5: a test with `repeats: n` whose every attempt passes runs
`n + 1` times with `repeatCount = n` and no retries consumed (first three
conjuncts); `repeatCount` subsumes `retryCount` on every run (fourth
conjunct); repeats are entered only after a passing attempt and a failure
during a repeat re-enters the retry loop for that repeat: with `repeats: 1`
and `retry: r`, a first attempt that passes followed by attempts that always
fail consumes all `r` retries inside the repeat, for `r + 2` attempts in
total (last two conjuncts). -/
theorem repeats_after_pass (retry n r reps : Nat) (fl : Bool)
    (behavior : Nat → Option (List String)) (msg : String) :
    (runTask retry n fl (fun _ => none)).repeatCount = n ∧
    (runTask retry n fl (fun _ => none)).attempts = n + 1 ∧
    (runTask retry n fl (fun _ => none)).retryCount = 0 ∧
    (runTask retry reps fl behavior).retryCount
      ≤ (runTask retry reps fl behavior).repeatCount ∧
    (runTask r 1 fl (fun k => match k with
      | 0 => none
      | _ + 1 => some [msg])).retryCount = r ∧
    (runTask r 1 fl (fun k => match k with
      | 0 => none
      | _ + 1 => some [msg])).attempts = r + 2 := by
  have hpass := repeatRounds_all_pass (fun _ => none) retry (fun _ => rfl) n 0
  have hsub := repeatRounds_retry_le_attempts behavior retry reps 0
  have h0 : retryRound (fun k => match k with
      | 0 => none
      | _ + 1 => some [msg]) 0 r = ⟨true, [], 0, 1⟩ :=
    retryRound_first_pass _ 0 rfl r
  have h1 : retryRound (fun k => match k with
      | 0 => none
      | _ + 1 => some [msg]) 1 r = ⟨false, [msg], r, r + 1⟩ := by
    refine retryRound_all_fail _ (fun _ => [msg]) r 1 ?_
    intro k hk
    cases k with
    | zero => exact absurd hk (by omega)
    | succ j => rfl
  have hmix : repeatRounds (fun k => match k with
      | 0 => none
      | _ + 1 => some [msg]) r 0 1 = ⟨false, [msg], r, r + 2⟩ := by
    simp [repeatRounds, h0, h1]
    omega
  refine ⟨?_, ?_, ?_, ?_, ?_, ?_⟩
  · simp [runTask, hpass]
  · simp [runTask, hpass]
  · simp [runTask, hpass]
  · simp only [runTask]
    omega
  · simp [runTask, hmix]
  · simp [runTask, hmix]

/- ## Result lifecycle (`TaskResult` docs in tasks.ts, spec data model) -/

/-- One finished attempt of a test: the soft-assertion failures accumulated
while it ran and, if it did not complete normally, a final error. -/
structure Attempt where
  softErrors : List String
  finalError : Option String
  deriving DecidableEq, Repr

/-- An attempt passed when it collected no soft failures and no final error. -/
def attemptPassed (a : Attempt) : Bool :=
  a.softErrors.isEmpty && a.finalError.isNone

/-- The ordered error sequence of one attempt: soft failures in order, then
the final error, if any. -/
def attemptErrors (a : Attempt) : List String :=
  a.softErrors ++ a.finalError.toList

/-- Modelled from the spec: a soft-assertion failure appends one more error
to the current attempt (errors accumulate within a single attempt). -/
def recordSoft (a : Attempt) (e : String) : Attempt :=
  { a with softErrors := a.softErrors ++ [e] }

/-- Modelled from the spec: the result recorded when an attempt finishes —
a terminal `pass` or `fail` state with the errors of that attempt. -/
def finishedResult (a : Attempt) : TaskResult :=
  { state := if attemptPassed a then .pass else .fail
    errors := attemptErrors a }

/-- Modelled from the spec: the in-flight result whose `state` inherits the
task mode during collection, before any terminal state exists. -/
def collectionResult (mode : RunMode) : TaskResult :=
  { state := TaskState.ofRunMode mode }

/-- Modelled from the spec: the `result` field of a task after a sequence of
finished attempts — absent until the first attempt finishes, and afterwards
the result of the latest attempt only (each attempt overwrites the previous
result rather than accumulating it). -/
def resultAfter (attempts : List Attempt) : Option TaskResult :=
  match attempts.getLast? with
  | none => none
  | some a => some (finishedResult a)

/-- Claim C6: the `result` field is absent until one attempt finishes; after
any attempt sequence ending in attempt `a` it is exactly the result of `a`
(overwritten, not accumulated); a finished state is exactly `pass` or
`fail`, while the in-flight state inherits the task mode; and a soft
assertion accumulates one more error within the current attempt. -/
theorem result_field_lifecycle (mode : RunMode) (as : List Attempt)
    (a : Attempt) (e : String) :
    resultAfter [] = none ∧
    resultAfter (as ++ [a]) = some (finishedResult a) ∧
    ((finishedResult a).state = TaskState.pass ∨
      (finishedResult a).state = TaskState.fail) ∧
    (collectionResult mode).state = TaskState.ofRunMode mode ∧
    (finishedResult (recordSoft a e)).errors
      = a.softErrors ++ e :: a.finalError.toList := by
  refine ⟨rfl, ?_, ?_, rfl, ?_⟩
  · simp [resultAfter]
  · cases h : attemptPassed a <;> simp [finishedResult, h]
  · simp [finishedResult, recordSoft, attemptErrors]

/- ## Hook sequencing (spec section 4.4, `SequenceHooks` in tasks.ts) -/

/-- Hook sequence policy, from `SequenceHooks` in tasks.ts. -/
inductive SequenceHooks
  | stack
  | list
  | parallel
  deriving DecidableEq, Repr

/-- The two hook directions around a unit of execution. -/
inductive HookKind
  | before
  | after
  deriving DecidableEq, Repr

/-- Modelled from the spec (section 4.4): the order in which the registered
hooks of one kind run at one level under a sequence policy — `stack` runs
before-hooks in registration order and after-hooks in reverse registration
order, `list` runs both in registration order, and `parallel` starts all of
them together, in registration order. -/
def hookExecutionOrder {α : Type} (policy : SequenceHooks) (kind : HookKind)
    (hooks : List α) : List α :=
  match policy, kind with
  | .stack, .before => hooks
  | .stack, .after => hooks.reverse
  | .list, _ => hooks
  | .parallel, _ => hooks

/-- Modelled from the spec: the full invocation log of one bracketed unit —
the before-hooks, the guarded body, then the after-hooks, each side ordered
by the sequence policy. -/
def suiteHookLog {α : Type} (policy : SequenceHooks) (hooks body : List α) :
    List α :=
  hookExecutionOrder policy .before hooks ++ body
    ++ hookExecutionOrder policy .after hooks

/-- Claim C7: with hooks registered in order `[h1, h2]`, policy `stack` runs
before-hooks as `h1, h2` and after-hooks as `h2, h1`, while policy `list`
runs both as `h1, h2`; in general `stack` reverses the after-hooks and
`list` keeps registration order for both kinds. -/
theorem hook_sequence_order {α : Type} (h1 h2 : α) (hooks body : List α) :
    suiteHookLog .stack [h1, h2] body = h1 :: h2 :: (body ++ [h2, h1]) ∧
    suiteHookLog .list [h1, h2] body = h1 :: h2 :: (body ++ [h1, h2]) ∧
    hookExecutionOrder .stack .before hooks = hooks ∧
    hookExecutionOrder .stack .after hooks = hooks.reverse ∧
    hookExecutionOrder .list .before hooks = hooks ∧
    hookExecutionOrder .list .after hooks = hooks := by
  simp [suiteHookLog, hookExecutionOrder]

/- ## Missing execution function (spec section 6, `TaskCustomOptions.handler`) -/

/-- A registered test before its function is resolved: from
`TaskCustomOptions`, the inline `handler` is optional. Functions are
represented by numeric tags, their content being immaterial. -/
structure TestRegistration where
  name : String
  handler : Option Nat
  deriving DecidableEq, Repr

/-- A collected test: the resolved function, if any, and the result the
collector assigned to the task itself. -/
structure CollectedTest where
  name : String
  fn : Option Nat
  result : Option TaskResult
  deriving DecidableEq, Repr

/-- The collection-time error reported on a task without a function. -/
def missingFnError (name : String) : String :=
  "Task " ++ name ++ " has no function"

/-- Modelled from the spec (section 6 and the `TaskCustomOptions.handler`
doc): with no inline handler the runner tries its own lookup `getFn`; if
that cannot supply a function either, the task is resolved to a failed
result at collection time. -/
def resolveTest (getFn : String → Option Nat) (t : TestRegistration) :
    CollectedTest :=
  match t.handler with
  | some f => ⟨t.name, some f, none⟩
  | none =>
    match getFn t.name with
    | some f => ⟨t.name, some f, none⟩
    | none => ⟨t.name, none,
        some { state := .fail, errors := [missingFnError t.name] }⟩

/-- Modelled from the spec: collecting a list of registrations resolves
every task and returns normally — a missing function is fatal for that task
only, never a crash of collection. -/
def collectTests (getFn : String → Option Nat)
    (ts : List TestRegistration) : Except String (List CollectedTest) :=
  .ok (ts.map (resolveTest getFn))

/-- Claim C8: a test with no inline handler for which the external runner
cannot supply a function is resolved to a failed result at collection time,
and collection of any registration list — including one containing such a
task — still returns normally instead of crashing. -/
theorem missing_fn_fails_task (getFn : String → Option Nat)
    (t : TestRegistration) (ts : List TestRegistration)
    (h1 : t.handler = none) (h2 : getFn t.name = none) :
    (resolveTest getFn t).result
      = some { state := TaskState.fail, errors := [missingFnError t.name] } ∧
    (∃ l, collectTests getFn ts = .ok l) ∧
    (∃ l, collectTests getFn (t :: ts) = .ok l) := by
  refine ⟨?_, ⟨_, rfl⟩, ⟨_, rfl⟩⟩
  simp [resolveTest, h1, h2]

/-- Witness for claim C8 at a concrete registration with no handler and a
runner that supplies none. -/
theorem missing_fn_fails_task_witness :
    (resolveTest (fun _ => none) ⟨"a", none⟩).result
      = some { state := TaskState.fail, errors := [missingFnError "a"] } ∧
    (∃ l, collectTests (fun _ => none) ([] : List TestRegistration) = .ok l) ∧
    (∃ l, collectTests (fun _ => none) [⟨"a", none⟩] = .ok l) :=
  missing_fn_fails_task (fun _ => none) ⟨"a", none⟩ [] rfl rfl

/- ## Suite back-references (`TaskBase.suite` and `File` in tasks.ts) -/

/-- Flat view of one collected task: its id, whether it is the file (root)
task, and the `suite` back-reference, recorded by the id of the owning
suite. -/
structure FlatTask where
  id : String
  isFile : Bool
  suite : Option String
  deriving DecidableEq, Repr

mutual
/-- Modelled from the spec and the `TaskBase.suite` doc: every task
registered under a suite receives that suite as its non-owning
back-reference. -/
def flattenTask (owner : String) (id : String) : TaskTree → List FlatTask
  | .test _ => [⟨id, false, some owner⟩]
  | .suite _ cs => ⟨id, false, some owner⟩ :: flattenChildren id 0 cs

/-- Flattens the children of the suite with id `owner`, starting at sibling
offset `i`; each child points back at `owner`. -/
def flattenChildren (owner : String) (i : Nat) : List TaskTree → List FlatTask
  | [] => []
  | c :: cs =>
    flattenTask owner (appendIndex owner i) c ++ flattenChildren owner (i + 1) cs
end

/-- Modelled from the spec: collecting a file makes the file task the root;
no collection operation assigns it a parent, so its `suite` back-reference
stays absent, while every descendant points at the suite that owns it. -/
def collectFlatFile (fp : String) (pn : Option String)
    (children : List TaskTree) : List FlatTask :=
  ⟨fileId fp pn, true, none⟩ :: flattenChildren (fileId fp pn) 0 children

mutual
theorem flattenTask_suite_isSome (owner id : String) (tr : TaskTree)
    (t : FlatTask) (h : t ∈ flattenTask owner id tr) :
    t.isFile = false ∧ t.suite.isSome = true := by
  cases tr with
  | test n =>
    simp only [flattenTask, List.mem_singleton] at h
    subst h
    exact ⟨rfl, rfl⟩
  | suite n cs =>
    simp only [flattenTask, List.mem_cons] at h
    cases h with
    | inl h =>
      subst h
      exact ⟨rfl, rfl⟩
    | inr h => exact flattenChildren_suite_isSome id 0 cs t h

theorem flattenChildren_suite_isSome (owner : String) (i : Nat)
    (cs : List TaskTree) (t : FlatTask) (h : t ∈ flattenChildren owner i cs) :
    t.isFile = false ∧ t.suite.isSome = true := by
  cases cs with
  | nil => simp [flattenChildren] at h
  | cons c cs =>
    simp only [flattenChildren, List.mem_append] at h
    cases h with
    | inl h => exact flattenTask_suite_isSome owner (appendIndex owner i) c t h
    | inr h => exact flattenChildren_suite_isSome owner (i + 1) cs t h
end

/-- Claim C9: in a collected file the file task is the root and its `suite`
back-reference is absent; every task in the collected file that is a file
has no `suite`, and every other task has one — assigned, at the point of
registration, to exactly the suite that owns it (last conjunct: the node
flattened under `owner` points back at `owner`). -/
theorem file_task_has_no_parent (fp : String) (pn : Option String)
    (cs : List TaskTree) (owner id : String) (tr : TaskTree) (t : FlatTask)
    (h : t ∈ collectFlatFile fp pn cs) :
    (collectFlatFile fp pn cs).head? = some ⟨fileId fp pn, true, none⟩ ∧
    (t.isFile = true → t.suite = none) ∧
    (t.isFile = false → t.suite.isSome = true) ∧
    (flattenTask owner id tr).head? = some ⟨id, false, some owner⟩ := by
  simp only [collectFlatFile, List.mem_cons] at h
  refine ⟨rfl, ?_, ?_, ?_⟩
  · intro hfile
    cases h with
    | inl h => rw [h]
    | inr h =>
      have := (flattenChildren_suite_isSome (fileId fp pn) 0 cs t h).1
      rw [hfile] at this
      exact absurd this (by simp)
  · intro hfile
    cases h with
    | inl h =>
      rw [h] at hfile
      exact absurd hfile (by simp)
    | inr h => exact (flattenChildren_suite_isSome (fileId fp pn) 0 cs t h).2
  · cases tr <;> rfl

/-- Witness for claim C9: a file with one test, inspected at its root. -/
theorem file_task_has_no_parent_witness :
    (collectFlatFile "a.ts" none [.test "x"]).head?
      = some ⟨fileId "a.ts" none, true, none⟩ ∧
    ((⟨fileId "a.ts" none, true, none⟩ : FlatTask).isFile = true →
      (⟨fileId "a.ts" none, true, none⟩ : FlatTask).suite = none) ∧
    ((⟨fileId "a.ts" none, true, none⟩ : FlatTask).isFile = false →
      (⟨fileId "a.ts" none, true, none⟩ : FlatTask).suite.isSome = true) ∧
    (flattenTask "s" "s_0" (.test "x")).head? = some ⟨"s_0", false, some "s"⟩ :=
  file_task_has_no_parent "a.ts" none [.test "x"] "s" "s_0" (.test "x")
    ⟨fileId "a.ts" none, true, none⟩ (by simp [collectFlatFile])

/- ## Registration interface surface (tasks.ts lines 355-364, 366-415, 469-496) -/

/-- Field names of the `TestOptions` object type (tasks.ts lines 366-415). -/
def testOptionsFields : List String :=
  ["timeout", "retry", "repeats", "concurrent", "sequential", "shuffle",
    "skip", "only", "todo", "fails"]

/-- Field names of `TestCollectorOptions = Omit<TestOptions, 'shuffle'>`
(tasks.ts line 364), the options object accepted by test registration. -/
def testCollectorOptionsFields : List String :=
  testOptionsFields.filter (fun f => f ≠ "shuffle")

/-- The chainable modifier tags of `ChainableTestAPI` (tasks.ts line 356). -/
def chainableTestTags : List String :=
  ["concurrent", "sequential", "only", "skip", "todo", "fails"]

/-- The chainable modifier tags of `ChainableSuiteAPI` (tasks.ts line 491). -/
def chainableSuiteTags : List String :=
  ["concurrent", "sequential", "only", "skip", "todo", "shuffle"]

/-- The options object accepted by suite registration:
`SuiteCollectorCallable` takes `options : TestOptions` un-omitted (tasks.ts
lines 476, 481, 485). -/
def suiteOptionsFields : List String :=
  testOptionsFields

/-- Whether the per-test registration interface offers a flag, through either
its options object or its modifier chain. -/
def testRegistrationOffers (f : String) : Bool :=
  testCollectorOptionsFields.contains f || chainableTestTags.contains f

/-- Whether the suite registration interface offers a flag, through either
its options object or its modifier chain. -/
def suiteRegistrationOffers (f : String) : Bool :=
  suiteOptionsFields.contains f || chainableSuiteTags.contains f

/-- Claim C10 counterexample: the suite registration interface does offer
`fails` — the callable part of `ChainableSuiteAPI` accepts the full
`TestOptions` object, which contains the `fails` field (only the suite
modifier chain omits it) — refuting the clause that it offers `shuffle`
but not `fails`. -/
theorem suite_interface_offers_fails :
    suiteRegistrationOffers "fails" = true := by decide

/-- Claim C10 (amended): the per-test registration interface cannot set
`shuffle` — its options type omits the field and its modifier chain lacks
the tag — while it offers `fails` through both; the suite modifier chain
offers `shuffle` but not `fails`, and the suite options object also offers
`shuffle`; however the suite options object, being full `TestOptions`, still
contains `fails`, so only `shuffle` is exclusive (to suites) at the type
level. -/
theorem modifier_availability :
    testRegistrationOffers "shuffle" = false ∧
    testCollectorOptionsFields.contains "shuffle" = false ∧
    chainableTestTags.contains "shuffle" = false ∧
    testRegistrationOffers "fails" = true ∧
    chainableTestTags.contains "fails" = true ∧
    testCollectorOptionsFields.contains "fails" = true ∧
    chainableSuiteTags.contains "shuffle" = true ∧
    chainableSuiteTags.contains "fails" = false ∧
    suiteOptionsFields.contains "shuffle" = true ∧
    suiteRegistrationOffers "fails" = true := by decide

end Vitest
